import Mathlib

/-
Verification development for the nyx terminal-dashboard core: the display
surface layer (src/interface/util.py), the interface controller and the
relay cache (src/nyx/__init__.py). Pure data and control flow is embedded
shallowly; platform collaborators (curses windows, sqlite, the panel
classes of nyx.panel which are outside the embedded sources) are modelled
as explicit state or as abstract parameters, as noted on each definition.
-/

deriving instance DecidableEq for Except

namespace Nyx

/-! ## Display attributes (curses constants, ncurses values) -/

def A_NORMAL : Nat := 0

def A_BOLD : Nat := 2097152

def A_UNDERLINE : Nat := 131072

def A_STANDOUT : Nat := 65536

/-- FORMAT_TAGS of interface/util.py at module load: bold, underline and
highlight tags carry their curses attribute; each color tag is associated
with curses.A_NORMAL until initColors installs real color pairs. The
claims under proof do not depend on the color attribute values. -/
def formatTags : List (List Char × Nat) :=
  [("<b>".toList, A_BOLD), ("<u>".toList, A_UNDERLINE), ("<h>".toList, A_STANDOUT),
   ("<red>".toList, A_NORMAL), ("<green>".toList, A_NORMAL), ("<yellow>".toList, A_NORMAL),
   ("<blue>".toList, A_NORMAL), ("<cyan>".toList, A_NORMAL), ("<magenta>".toList, A_NORMAL),
   ("<black>".toList, A_NORMAL), ("<white>".toList, A_NORMAL)]

def formatTagKeys : List (List Char) := formatTags.map Prod.fst

/-- FORMAT_TAGS lookup. In the scan loop the looked-up key always comes
from the table (open tags are table keys; a close tag is turned back into
its open tag), so the default branch is unreachable there. -/
def tagAttr (tag : List Char) : Nat :=
  match formatTags.find? (fun e => decide (e.1 = tag)) with
  | some e => e.2
  | none => 0

/-- Python str.find: index of the first occurrence of tag in msg,
none when absent (Python returns -1). -/
def strFind (tag : List Char) : List Char → Option Nat
  | [] => if tag.isEmpty then some 0 else none
  | c :: rest =>
    if tag.isPrefixOf (c :: rest) then some 0
    else (strFind tag rest).map (fun n => n + 1)

/-- One candidate step of the "finds next consumeable tag" scan of
Panel.addfstr: keep the current best unless this tag occurs strictly
earlier. -/
def tagStep (msg : List Char) (best : Option (List Char × Nat)) (tag : List Char) :
    Option (List Char × Nat) :=
  match strFind tag msg with
  | none => best
  | some i =>
    match best with
    | none => some (tag, i)
    | some b => if i < b.2 then some (tag, i) else best

/-- The nearest next occurrence among the candidate tags, as in
Panel.addfstr (nextTag, nextTagIndex). -/
def findNextTag (cands : List (List Char)) (msg : List Char) : Option (List Char × Nat) :=
  cands.foldl (tagStep msg) none

/-- The while-loop of Panel.addfstr. State: column cursor x, remaining
message, formatting stack, expectedCloseTags stack. Returns the list of
(column, clipped text, attribute) writes issued on the subwindow together
with the final cursor, or none if the fuel runs out (the top-level call
supplies msg.length + 1, which is proven sufficient). -/
def addfstrLoop : Nat → Int → Int → List Char → List Nat → List (List Char) →
    Option (List (Int × List Char × Nat) × Int)
  | 0, _, _, _, _, _ => none
  | Nat.succ fuel, maxX, x, msg, formatting, closeTags =>
    if maxX > x ∧ msg ≠ [] then
      let attr := formatting.foldl (fun a f => a ||| f) 0
      match findNextTag (formatTagKeys ++ closeTags) msg with
      | none =>
        (addfstrLoop fuel maxX (x + msg.length) [] formatting closeTags).map
          (fun r => ((x, msg.take (maxX - x - 1).toNat, attr) :: r.1, r.2))
      | some ti =>
        let seg := msg.take ti.2
        let rest := msg.drop (ti.2 + ti.1.length)
        if ['<', '/'].isPrefixOf ti.1 then
          (addfstrLoop fuel maxX (x + seg.length) rest
              (formatting.erase (tagAttr ('<' :: ti.1.drop 2))) (closeTags.erase ti.1)).map
            (fun r => ((x, seg.take (maxX - x - 1).toNat, attr) :: r.1, r.2))
        else
          (addfstrLoop fuel maxX (x + seg.length) rest
              (formatting ++ [tagAttr ti.1]) (closeTags ++ [('<' :: '/' :: ti.1.drop 1)])).map
            (fun r => ((x, seg.take (maxX - x - 1).toNat, attr) :: r.1, r.2))
    else
      some ([], x)

/-! ## Panel (interface/util.py) -/

/-- A curses subwindow: its dimensions (getmaxyx) and the row at which it
was created in the parent (getparyx). -/
structure Subwin where
  h : Int
  w : Int
  y : Int
deriving DecidableEq

/-- Panel state: the optional subwindow, configured top (startY),
preferred height (-1 = infinite), the displaced flag and the cached
bounds maxY/maxX (-1 when no window). -/
structure Panel where
  win : Option Subwin
  startY : Int
  height : Int
  isDisplaced : Bool
  maxY : Int
  maxX : Int
deriving DecidableEq

/-- Panel._resetBounds: cache the last known dimensions of win. -/
def Panel.resetBounds (p : Panel) : Panel :=
  match p.win with
  | some w => { p with maxY := w.h, maxX := w.w }
  | none => { p with maxY := -1, maxX := -1 }

/-- Panel.recreate(stdscr, startY, maxX). scrY/scrX are
stdscr.getmaxyx(). Returns (created?, new panel state). A fresh subwindow
is placed at min(startY, scrY - 1) with width min(scrX, maxX) when a
width constraint is given. -/
def Panel.recreate (p : Panel) (scrY scrX : Int) (startY : Int) (maxX : Int) :
    Bool × Panel :=
  let p1 := p.resetBounds
  if p1.win.isSome ∧ startY > scrY then (false, p1)
  else
    let nh0 := max 0 (scrY - startY)
    let newHeight := if p1.height ≠ -1 then min nh0 p1.height else nh0
    if p1.startY ≠ startY ∨ newHeight > p1.maxY ∨ p1.isDisplaced = true ∨
        (p1.maxX ≠ maxX ∧ maxX ≠ -1) then
      let sy := min startY (scrY - 1)
      let xw := if maxX ≠ -1 then min scrX maxX else scrX
      (true, { p1 with startY := startY, win := some ⟨newHeight, xw, sy⟩ })
    else (false, p1)

/-- Panel.addstr(y, x, msg, attr): the write issued on the subwindow
(row, column, clipped text, attribute), or none when the guard fails and
the call is a silent no-op. -/
def Panel.addstr (p : Panel) (y x : Int) (msg : List Char) (attr : Nat) :
    Option (Int × Int × List Char × Nat) :=
  if p.win.isSome ∧ p.maxX > x ∧ p.maxY > y ∧ p.isDisplaced = false then
    some (y, x, msg.take (p.maxX - x - 1).toNat, attr)
  else none

/-- Panel.addfstr(y, x, msg): the writes issued on the subwindow, each as
(column, clipped text, attribute); all are on row y. -/
def Panel.addfstr (p : Panel) (y x : Int) (msg : List Char) :
    List (Int × List Char × Nat) :=
  if p.win.isSome ∧ p.maxY > y ∧ p.isDisplaced = false then
    match addfstrLoop (msg.length + 1) p.maxX x msg [A_NORMAL] [] with
    | some r => r.1
    | none => []
  else []

/-! ## Cache construction (nyx/__init__.py, Cache.__init__) -/

def SCHEMA_VERSION : Int := 1

/-- Environment of one Cache construction: whether data_directory yields
a usable path, whether the first sqlite3.connect on it succeeds, the
stored schema version read by SELECT (none when the read raises or the
row is absent), and whether os.remove and the second sqlite3.connect
succeed. -/
structure CacheEnv where
  cachePath : Bool
  connectOk : Bool
  storedSchema : Option Int
  removeOk : Bool
  reconnectOk : Bool
deriving DecidableEq

inductive CacheInitResult where
  | loaded : CacheInitResult
  | recreated : CacheInitResult
  | inMemory : CacheInitResult
  | crashed : String → CacheInitResult
deriving DecidableEq

/-- Cache.__init__. With a path, connect and read the schema version
inside a bare try/except that maps any failure to schema = None. A
matching version keeps the store. Otherwise the code runs
self._conn.close(); os.remove(cache_path); sqlite3.connect; CREATE
schema - but when the first connect failed, self._conn was never
assigned, so the close() aborts with AttributeError. Without a usable
path it builds the in-memory store. -/
def cacheInit (env : CacheEnv) : CacheInitResult :=
  if env.cachePath then
    let schema : Option Int := if env.connectOk then env.storedSchema else none
    if schema = some SCHEMA_VERSION then CacheInitResult.loaded
    else if env.connectOk = false then
      CacheInitResult.crashed "AttributeError: Cache instance has no attribute _conn"
    else if env.removeOk = false then CacheInitResult.crashed "os.remove raised"
    else if env.reconnectOk = false then CacheInitResult.crashed "sqlite3.connect raised"
    else CacheInitResult.recreated
  else CacheInitResult.inMemory

/-! ## Relay records (nyx/__init__.py, CacheWriter.record_relay) -/

/-- One row of the relays table (fingerprint TEXT PRIMARY KEY, address,
or_port, nickname). -/
structure RelayRow where
  fingerprint : String
  address : String
  or_port : Int
  nickname : String
deriving DecidableEq

/-- Modelled from the spec: the fingerprint/nickname/address/port
validators live in stem (stem.util.tor_tools, stem.util.connection),
outside the embedded sources; the spec calls them external, unspecified
predicates, so they are abstract parameters here. -/
structure Validators where
  fingerprintOk : String → Bool
  nicknameOk : String → Bool
  ipv4Ok : String → Bool
  ipv6Ok : String → Bool
  portOk : Int → Bool

/-- INSERT OR REPLACE keyed by the fingerprint primary key: replace the
conflicting row when one exists, otherwise append the new row. -/
def upsertRelay (rows : List RelayRow) (r : RelayRow) : List RelayRow :=
  if rows.any (fun q => decide (q.fingerprint = r.fingerprint)) then
    rows.map (fun q => if q.fingerprint = r.fingerprint then r else q)
  else rows ++ [r]

/-- CacheWriter.record_relay: four validations in source order, each
raising ValueError naming the offending value and field before any
storage mutation; then the upsert. -/
def record_relay (v : Validators) (rows : List RelayRow) (fingerprint address : String)
    (or_port : Int) (nickname : String) : Except String (List RelayRow) :=
  if v.fingerprintOk fingerprint = false then
    Except.error ("\x27" ++ fingerprint ++ "\x27 isn\x27t a valid fingerprint")
  else if v.nicknameOk nickname = false then
    Except.error ("\x27" ++ nickname ++ "\x27 isn\x27t a valid nickname")
  else if v.ipv4Ok address = false ∧ v.ipv6Ok address = false then
    Except.error ("\x27" ++ address ++ "\x27 isn\x27t a valid address")
  else if v.portOk or_port = false then
    Except.error ("\x27" ++ toString or_port ++ "\x27 isn\x27t a valid port")
  else
    Except.ok (upsertRelay rows ⟨fingerprint, address, or_port, nickname⟩)

/-- Cache.relay_nickname: point lookup by fingerprint, returning the
stored nickname, or the default when no such row exists. -/
def relay_nickname (rows : List RelayRow) (fingerprint : String) (dflt : Option String) :
    Option String :=
  match rows.find? (fun q => decide (q.fingerprint = fingerprint)) with
  | some q => some q.nickname
  | none => dflt

/-! ## Interface controller (nyx/__init__.py, class Interface)

The concrete panel classes live in nyx.panel, outside the embedded
sources; the controller only calls set_visible, set_paused, redraw,
start, stop and join on them. -/

/-- Modelled from the spec: the observable state of one panel
(nyx.panel is not among the embedded sources). A visibility flag, a
paused flag, and counters recording how often redraw, set_paused, start,
stop and join have been invoked on it; isDaemon marks a
background-polling (DaemonPanel) surface. -/
structure PanelS where
  visible : Bool
  paused : Bool
  redrawCount : Nat
  setPausedCount : Nat
  isDaemon : Bool
  startCount : Nat
  stopCount : Nat
  joinCount : Nat
deriving DecidableEq

def freshPanel (d : Bool) : PanelS := ⟨false, false, 0, 0, d, 0, 0, 0⟩

def defaultPanel : PanelS := freshPanel false

/-- Modelled from the spec: panel.set_visible sets the visibility flag. -/
def PanelS.set_visible (q : PanelS) (v : Bool) : PanelS := { q with visible := v }

/-- Modelled from the spec: panel.set_paused signals the surface to
suspend or resume background polling; recorded by the flag and a
propagation counter. -/
def PanelS.set_paused (q : PanelS) (b : Bool) : PanelS :=
  { q with paused := b, setPausedCount := q.setPausedCount + 1 }

/-- Modelled from the spec: panel.redraw renders the surface content;
recorded as a counter. -/
def PanelS.redraw (q : PanelS) : PanelS := { q with redrawCount := q.redrawCount + 1 }

/-- Modelled from the spec: DaemonPanel.start begins the polling loop. -/
def PanelS.start (q : PanelS) : PanelS := { q with startCount := q.startCount + 1 }

/-- Modelled from the spec: DaemonPanel.stop requests cooperative
termination of the polling loop. -/
def PanelS.stop (q : PanelS) : PanelS := { q with stopCount := q.stopCount + 1 }

/-- Modelled from the spec: DaemonPanel.join blocks until the polling
loop has exited. -/
def PanelS.join (q : PanelS) : PanelS := { q with joinCount := q.joinCount + 1 }

def startIfDaemon (q : PanelS) : PanelS := if q.isDaemon then q.start else q

/-- The CONFIG show_* flags consulted by Interface.__init__. -/
structure Config where
  graphFlag : Bool
  logFlag : Bool
  connectionsFlag : Bool
  configFlag : Bool
  torrcFlag : Bool
  interpreterFlag : Bool
deriving DecidableEq

/-- Which of the seven constructed panels are DaemonPanel instances
(decided by the nyx.panel classes, outside the embedded sources). -/
structure DaemonFlags where
  header : Bool
  graph : Bool
  log : Bool
  conn : Bool
  conf : Bool
  torrc : Bool
  interp : Bool
deriving DecidableEq

/-- List map with the element index passed to the function. -/
def idxMap {α β : Type} (f : Nat → α → β) : Nat → List α → List β
  | _, [] => []
  | k, a :: as => f k a :: idxMap f (k + 1) as

/-- Interface state: current page index, the header panel, the pages
(each an ordered list of panels), the paused and quit flags. -/
structure Interface where
  page : Int
  headerPanel : PanelS
  pagePanels : List (List PanelS)
  paused : Bool
  quitFlag : Bool
deriving DecidableEq

def dfltInterface : Interface := ⟨0, defaultPanel, [], false, false⟩

/-- The pages Interface.__init__ builds from the CONFIG show flags: the
graph and log panels share the first page (present only when nonempty),
then one page per remaining enabled panel. -/
def initPages (cfg : Config) (d : DaemonFlags) : List (List PanelS) :=
  let firstPage := (if cfg.graphFlag then [freshPanel d.graph] else []) ++
    (if cfg.logFlag then [freshPanel d.log] else [])
  (if firstPage.isEmpty then [] else [firstPage]) ++
    (if cfg.connectionsFlag then [[freshPanel d.conn]] else []) ++
    (if cfg.configFlag then [[freshPanel d.conf]] else []) ++
    (if cfg.torrcFlag then [[freshPanel d.torrc]] else []) ++
    (if cfg.interpreterFlag then [[freshPanel d.interp]] else [])

/-- The state Interface.__init__ leaves behind: page 0 selected, each
visibility flag set to (panel in [header] + pages[0]), each DaemonPanel
started. -/
def initState (d : DaemonFlags) (pages : List (List PanelS)) : Interface :=
  { page := 0,
    headerPanel := startIfDaemon ((freshPanel d.header).set_visible true),
    pagePanels := idxMap
      (fun i pnls => pnls.map
        (fun q => startIfDaemon (q.set_visible (decide ((i : Int) = 0))))) 0 pages,
    paused := false,
    quitFlag := false }

/-- Interface.__init__: build the pages from the config flags, then set
each visibility flag to (panel in [header] + pages[0]) and start each
DaemonPanel. Accessing page 0 of an empty page list raises IndexError,
modelled as the error case. -/
def Interface.init (cfg : Config) (d : DaemonFlags) : Except String Interface :=
  if (initPages cfg d).isEmpty then Except.error "IndexError: list index out of range"
  else Except.ok (initState d (initPages cfg d))

/-- Interface.get_page. -/
def Interface.get_page (st : Interface) : Int := st.page

/-- Interface.page_count. -/
def Interface.page_count (st : Interface) : Int := st.pagePanels.length

/-- Interface.set_page: raise ValueError outside [0, page_count); on a
change, store the page, redraw the header, then set every visibility
flag against the new page (the header is always visible). -/
def Interface.set_page (st : Interface) (p : Int) : Except String Interface :=
  if p < 0 ∨ st.page_count ≤ p then
    Except.error ("Invalid page number: " ++ toString p)
  else if p ≠ st.page then
    Except.ok
      { st with
        page := p,
        headerPanel := (st.headerPanel.redraw).set_visible true,
        pagePanels := idxMap
          (fun i pnls => pnls.map (fun q => q.set_visible (decide ((i : Int) = p))))
          0 st.pagePanels }
  else Except.ok st

/-- Interface.is_paused. -/
def Interface.is_paused (st : Interface) : Bool := st.paused

/-- Interface.set_paused: no-op when unchanged; otherwise store the flag,
propagate set_paused to every panel (header first), then redraw the
header and the panels of the current page. -/
def Interface.set_paused (st : Interface) (b : Bool) : Interface :=
  if b ≠ st.paused then
    { st with
      paused := b,
      headerPanel := (st.headerPanel.set_paused b).redraw,
      pagePanels := idxMap
        (fun i pnls =>
          if (i : Int) = st.page then pnls.map (fun q => (q.set_paused b).redraw)
          else pnls.map (fun q => q.set_paused b)) 0 st.pagePanels }
  else st

/-- Interface.redraw: redraw the header and the panels of the current
page top to bottom (the accumulated vertical offset handed to each
panel.redraw does not change controller state and is omitted). -/
def Interface.redraw (st : Interface) : Interface :=
  { st with
    headerPanel := st.headerPanel.redraw,
    pagePanels := idxMap
      (fun i pnls => if (i : Int) = st.page then pnls.map PanelS.redraw else pnls)
      0 st.pagePanels }

/-- Interface.quit: set the termination flag. -/
def Interface.quit (st : Interface) : Interface := { st with quitFlag := true }

/-- Interface.__iter__ order: the header panel, then every page panel in
page order. -/
def Interface.panels (st : Interface) : List PanelS :=
  st.headerPanel :: st.pagePanels.flatten

/-- The shutdown actions of halt, by flat panel index. -/
inductive HaltEvent where
  | stop : Nat → HaltEvent
  | join : Nat → HaltEvent
deriving DecidableEq

def getP : List PanelS → Nat → PanelS
  | [], _ => defaultPanel
  | q :: _, 0 => q
  | _ :: rest, Nat.succ i => getP rest i

def setP : List PanelS → Nat → PanelS → List PanelS
  | [], _, _ => []
  | _ :: rest, 0, b => b :: rest
  | q :: rest, Nat.succ i, b => q :: setP rest i b

def modifyPanelAt (ps : List PanelS) (i : Nat) (f : PanelS → PanelS) : List PanelS :=
  setP ps i (f (getP ps i))

/-- Flat indices of the DaemonPanel instances, in iteration order. -/
def Interface.daemonIdxs (st : Interface) : List Nat :=
  (List.range st.panels.length).filter (fun i => (getP st.panels i).isDaemon)

/-- Interface.halt: returns immediately with the interface unchanged and
the work the spawned thread will perform, as an ordered list of events:
stop() on every daemon panel, then join() on every daemon panel. -/
def Interface.halt (st : Interface) : Interface × List HaltEvent :=
  (st, st.daemonIdxs.map HaltEvent.stop ++ st.daemonIdxs.map HaltEvent.join)

/-- Executing the halt thread: perform the stop/join calls in order. -/
def applyEvents (ps : List PanelS) : List HaltEvent → List PanelS
  | [] => ps
  | HaltEvent.stop i :: rest => applyEvents (modifyPanelAt ps i PanelS.stop) rest
  | HaltEvent.join i :: rest => applyEvents (modifyPanelAt ps i PanelS.join) rest

/-- The visibility invariant: the header is visible, and a panel of page
i is visible exactly when i is the current page. -/
def Interface.visInv (st : Interface) : Prop :=
  st.headerPanel.visible = true ∧
  ∀ i pnls, st.pagePanels.get? i = some pnls →
    ∀ q ∈ pnls, q.visible = decide ((i : Int) = st.page)

/-! ## Concrete inputs used by witnesses and counterexamples -/

/-- A freshly constructed Panel (win None, startY -1, infinite height). -/
def pFresh : Panel := ⟨none, -1, -1, false, -1, -1⟩

/-- A panel holding a 5x5 subwindow at row 0. -/
def pC1 : Panel := ⟨some ⟨5, 5, 0⟩, 0, -1, false, 5, 5⟩

/-- A panel holding a 10x10 subwindow at row 0. -/
def pC7 : Panel := ⟨some ⟨10, 10, 0⟩, 0, -1, false, 10, 10⟩

/-- A panel holding a 24x80 subwindow at row 0. -/
def pC5 : Panel := ⟨some ⟨24, 80, 0⟩, 0, -1, false, 24, 80⟩

def cfg1 : Config := ⟨true, true, true, true, true, true⟩

def d1 : DaemonFlags := ⟨true, true, false, true, false, false, true⟩

def stC6val : Interface := ((Interface.init cfg1 d1).toOption).getD dfltInterface

def st3 : Interface :=
  ⟨0, freshPanel false, [[freshPanel false], [freshPanel true]], false, false⟩

def st8 : Interface :=
  ⟨0, freshPanel true, [[freshPanel false], [freshPanel true]], false, false⟩

def st9 : Interface := ⟨0, freshPanel true, [[freshPanel false]], false, false⟩

/-- Concrete validators for witnesses: 40-character fingerprints,
short nonempty nicknames, one literal address each, ports 1-65535. -/
def vC4 : Validators :=
  ⟨fun s => decide (s.length = 40),
   fun s => decide (0 < s.length ∧ s.length ≤ 19),
   fun s => decide (s = "127.0.0.1"),
   fun s => decide (s = "::1"),
   fun n => decide (1 ≤ n ∧ n ≤ 65535)⟩

def fpA : String := "AAAAAAAAAAAAAAAAAAAAAAAAAAAAAAAAAAAAAAAA"

def rowA : RelayRow := ⟨fpA, "127.0.0.1", 9001, "Unnamed"⟩

/-! ## Helper lemmas: markup scan -/

theorem formatTagKeys_ne_nil : ∀ t ∈ formatTagKeys, t ≠ [] := by
  decide

theorem isSome_opt_map {α β : Type} (f : α → β) (o : Option α) :
    (Option.map f o).isSome = o.isSome := by
  cases o <;> rfl

theorem tagStep_eq (msg : List Char) (acc : Option (List Char × Nat)) (tag : List Char) :
    tagStep msg acc tag = acc ∨ ∃ i, tagStep msg acc tag = some (tag, i) := by
  unfold tagStep
  split
  · exact Or.inl rfl
  · split
    · exact Or.inr ⟨_, rfl⟩
    · split
      · exact Or.inr ⟨_, rfl⟩
      · exact Or.inl rfl

theorem findNextTag_mem_aux (msg : List Char) :
    ∀ (cands : List (List Char)) (acc : Option (List Char × Nat)) (ti : List Char × Nat),
      List.foldl (tagStep msg) acc cands = some ti →
      (∃ j, acc = some (ti.1, j)) ∨ ti.1 ∈ cands := by
  intro cands
  induction cands with
  | nil =>
    intro acc ti h
    exact Or.inl ⟨ti.2, by simpa using h⟩
  | cons c rest ih =>
    intro acc ti h
    rcases ih (tagStep msg acc c) ti (by simpa using h) with ⟨j, hj⟩ | hmem
    · rcases tagStep_eq msg acc c with heq | ⟨i, heq⟩
      · rw [heq] at hj
        exact Or.inl ⟨j, hj⟩
      · rw [heq] at hj
        simp only [Option.some.injEq, Prod.mk.injEq] at hj
        exact Or.inr (hj.1 ▸ List.mem_cons_self c rest)
    · exact Or.inr (List.mem_cons_of_mem c hmem)

theorem findNextTag_mem (cands : List (List Char)) (msg : List Char)
    (ti : List Char × Nat) (h : findNextTag cands msg = some ti) : ti.1 ∈ cands := by
  rcases findNextTag_mem_aux msg cands none ti h with ⟨j, hj⟩ | hm
  · exact absurd hj (by simp)
  · exact hm

/-- The scan loop of Panel.addfstr runs to completion whenever the fuel
exceeds the length of the remaining message and no expected close tag is
empty: each iteration either empties the message or strictly shrinks it
by at least the found tag. -/
theorem addfstrLoop_isSome :
    ∀ (fuel : Nat) (maxX x : Int) (msg : List Char) (fmts : List Nat)
      (cts : List (List Char)), (∀ t ∈ cts, t ≠ []) → msg.length < fuel →
      (addfstrLoop fuel maxX x msg fmts cts).isSome = true := by
  intro fuel
  induction fuel with
  | zero =>
    intro _ _ _ _ _ _ hlen
    omega
  | succ n ih =>
    intro maxX x msg fmts cts hcts hlen
    by_cases hg : maxX > x ∧ msg ≠ []
    · have hmsg : 1 ≤ msg.length := by
        cases msg with
        | nil => exact absurd rfl hg.2
        | cons c cs => simp
      cases hft : findNextTag (formatTagKeys ++ cts) msg with
      | none =>
        simp only [addfstrLoop, if_pos hg, hft]
        rw [isSome_opt_map]
        exact ih maxX (x + msg.length) [] fmts cts hcts (by simp; omega)
      | some ti =>
        have hne : ti.1 ≠ [] := by
          rcases List.mem_append.mp (findNextTag_mem _ _ _ hft) with hk | hc
          · exact formatTagKeys_ne_nil ti.1 hk
          · exact hcts ti.1 hc
        have htl : 1 ≤ ti.1.length := by
          cases hh : ti.1 with
          | nil => exact absurd hh hne
          | cons a as => simp
        have hlt : (msg.drop (ti.2 + ti.1.length)).length < n := by
          rw [List.length_drop]
          omega
        simp only [addfstrLoop, if_pos hg, hft]
        by_cases hp : ['<', '/'].isPrefixOf ti.1
        · rw [if_pos hp, isSome_opt_map]
          exact ih _ _ _ _ _ (fun t ht => hcts t (List.mem_of_mem_erase ht)) hlt
        · rw [if_neg hp, isSome_opt_map]
          refine ih _ _ _ _ _ ?_ hlt
          intro t ht
          rcases List.mem_append.mp ht with h1 | h2
          · exact hcts t h1
          · rw [List.mem_singleton] at h2
            subst h2
            simp
    · simp [addfstrLoop, if_neg hg]

/-! ## Claims C1, C2, C5, C7, C10 -/

/-- Claim C1, counterexample. The claim states that layout with a
desiredTop exceeding the container height returns false and mutates
nothing, for every surface. For a freshly constructed panel (no
subwindow yet) with desiredTop 20 on a container of height 10, recreate
skips the out-of-bounds early return (it only fires when a subwindow
exists) and creates a displaced subwindow, returning True. -/
theorem c1_counterexample : (Panel.recreate pFresh 10 10 20 (-1)).1 = true := by
  decide

/-- Claim C1, amended: for every surface that currently holds a
subwindow, layout with desiredTop exceeding containerHeight returns
false, leaves the configured top, preferred height, displaced flag and
the subwindow unmutated, and resets the cached bounds to the dimensions
of that subwindow. -/
theorem c1_layout_with_region (p : Panel) (w : Subwin) (scrY scrX top mx : Int)
    (hw : p.win = some w) (htop : top > scrY) :
    Panel.recreate p scrY scrX top mx = (false, { p with maxY := w.h, maxX := w.w }) := by
  have h1 : p.resetBounds = { p with maxY := w.h, maxX := w.w } := by
    unfold Panel.resetBounds
    rw [hw]
  unfold Panel.recreate
  rw [h1]
  rw [if_pos]
  exact ⟨by simp [hw], htop⟩

theorem c1_witness :
    Panel.recreate pC1 10 10 20 (-1) = (false, { pC1 with maxY := 5, maxX := 5 }) :=
  c1_layout_with_region pC1 ⟨5, 5, 0⟩ 10 10 20 (-1) rfl (by decide)

/-- Claim C2: evaluation of Cache.__init__ at the failing environment
and on the claimed recovery paths. When the configured cache location is
usable but the first sqlite3.connect raises, the bare except sets schema
to None and the clearing branch then executes self._conn.close() with
_conn never assigned: construction aborts with AttributeError instead of
degrading. Schema mismatch with a successful open does recreate the
store, and an unusable location does fall back to the in-memory store. -/
theorem c2_code_bug_eval :
    cacheInit ⟨true, false, none, true, true⟩ =
      CacheInitResult.crashed "AttributeError: Cache instance has no attribute _conn" ∧
    cacheInit ⟨true, true, some 0, true, true⟩ = CacheInitResult.recreated ∧
    cacheInit ⟨true, true, none, true, true⟩ = CacheInitResult.recreated ∧
    cacheInit ⟨true, true, some 1, true, true⟩ = CacheInitResult.loaded ∧
    cacheInit ⟨false, false, none, false, false⟩ = CacheInitResult.inMemory := by
  exact ⟨rfl, rfl, rfl, rfl, rfl⟩

/-- Claim C5: writing the markup string "<b>hi</b> there" on a 24x80
surface at row 0, column 0 emits the (empty) run before the open tag
with no attribute, then "hi" with the bold attribute, then " there"
with no attribute at column 2: each run carries the bitwise union of
the attributes pushed by the currently open tags, the b-tag pushes bold
and is popped by its close tag, and the column cursor advances only by
the emitted text (the tags occupy zero columns, so " there" starts at
column 2, not 6). -/
theorem c5_markup_example :
    Panel.addfstr pC5 0 0 "<b>hi</b> there".toList =
      [(0, "".toList, A_NORMAL), (0, "hi".toList, A_BOLD),
       (2, " there".toList, A_NORMAL)] := by
  decide

/-- Claim C7, counterexample. The claim states that a write whose row or
column falls outside the surface's current bounds is a silent no-op. Row
-1 lies outside the bounds of a 10x10 surface, yet addstr only checks
the upper bounds (maxY > y, maxX > x), so the write is passed through to
the subwindow rather than suppressed. -/
theorem c7_counterexample :
    Panel.addstr pC7 (-1) 0 ('h' :: 'i' :: []) 0 ≠ none := by
  decide

/-- Claim C7, amended: writeText is a no-op exactly when the surface has
no region, is displaced, or row/col reach the respective cached upper
bound (negative coordinates are passed through); any write that is
issued carries the text truncated to at most width - col - 1 characters,
so it never reaches the last column of the cached bounds. -/
theorem c7_clipped_write (p : Panel) (y x : Int) (msg : List Char) (attr : Nat) :
    (¬ (p.win.isSome = true ∧ p.maxX > x ∧ p.maxY > y ∧ p.isDisplaced = false) →
      Panel.addstr p y x msg attr = none) ∧
    (∀ yo xo so ao, Panel.addstr p y x msg attr = some (yo, xo, so, ao) →
      yo = y ∧ xo = x ∧ so = msg.take (p.maxX - x - 1).toNat ∧ ao = attr ∧
      (so.length : Int) ≤ p.maxX - x - 1 ∧ x + (so.length : Int) ≤ p.maxX - 1) := by
  constructor
  · intro h
    unfold Panel.addstr
    rw [if_neg h]
  · intro yo xo so ao h
    unfold Panel.addstr at h
    by_cases hc : p.win.isSome = true ∧ p.maxX > x ∧ p.maxY > y ∧ p.isDisplaced = false
    · rw [if_pos hc] at h
      simp only [Option.some.injEq, Prod.mk.injEq] at h
      obtain ⟨hy, hx, hs, ha⟩ := h
      have hlen : so.length ≤ (p.maxX - x - 1).toNat := by
        rw [← hs]
        rw [List.length_take]
        exact min_le_left _ _
      have hxlt : x < p.maxX := hc.2.1
      refine ⟨hy.symm, hx.symm, hs.symm, ha.symm, ?_, ?_⟩ <;> omega
    · rw [if_neg hc] at h
      exact absurd h (by simp)

theorem c7_witness : Panel.addstr pC7 0 20 ('h' :: []) 0 = none :=
  (c7_clipped_write pC7 0 20 ('h' :: []) 0).1 (by decide)

/-- Claim C10: the markup scan loop of writeMarkup terminates for every
input string, starting column, bounds, formatting stack and well-formed
close-tag stack (no empty expected close tag; the loop itself only ever
pushes nonempty ones): with fuel one larger than the message, the loop
always completes, because an iteration without a tag consumes the whole
message and an iteration with a tag strictly shrinks it by at least the
tag's length. -/
theorem c10_markup_terminates (maxX x : Int) (msg : List Char) (fmts : List Nat)
    (cts : List (List Char)) (hw : ∀ t ∈ cts, t ≠ []) :
    (addfstrLoop (msg.length + 1) maxX x msg fmts cts).isSome = true :=
  addfstrLoop_isSome (msg.length + 1) maxX x msg fmts cts hw (by omega)

theorem c10_witness :
    (addfstrLoop (("<b><b>hi</u>".toList).length + 1) 80 0 "<b><b>hi</u>".toList
      [A_NORMAL] []).isSome = true :=
  c10_markup_terminates 80 0 _ [A_NORMAL] []
    (fun t ht => absurd ht (List.not_mem_nil t))

/-! ## Helper lemmas: relay upserts -/

theorem find?_map_replace (key : String) (r : RelayRow) (hr : r.fingerprint = key) :
    ∀ rows : List RelayRow,
      rows.any (fun q => decide (q.fingerprint = key)) = true →
      (rows.map (fun q => if q.fingerprint = key then r else q)).find?
        (fun q => decide (q.fingerprint = key)) = some r := by
  intro rows
  induction rows with
  | nil =>
    intro h
    simp at h
  | cons q rest ih =>
    intro hany
    by_cases hq : q.fingerprint = key
    · simp only [List.map_cons, if_pos hq]
      rw [List.find?_cons_of_pos _ (by simp [hr])]
    · simp only [List.map_cons, if_neg hq]
      rw [List.find?_cons_of_neg _ (by simp [hq])]
      exact ih (by simpa [hq] using hany)

theorem find?_append_new (rows : List RelayRow) (r : RelayRow)
    (h : rows.any (fun q => decide (q.fingerprint = r.fingerprint)) = false) :
    (rows ++ [r]).find? (fun q => decide (q.fingerprint = r.fingerprint)) = some r := by
  rw [List.find?_append]
  have hnone : rows.find? (fun q => decide (q.fingerprint = r.fingerprint)) = none := by
    rw [List.find?_eq_none]
    intro q hq
    have hall := List.any_eq_false.mp h q hq
    simpa using hall
  rw [hnone]
  rw [Option.none_or]
  rw [List.find?_cons_of_pos _ (by simp)]

theorem upsert_lookup (rows : List RelayRow) (r : RelayRow) :
    relay_nickname (upsertRelay rows r) r.fingerprint none = some r.nickname := by
  unfold relay_nickname upsertRelay
  by_cases hany : rows.any (fun q => decide (q.fingerprint = r.fingerprint)) = true
  · rw [if_pos hany, find?_map_replace r.fingerprint r rfl rows hany]
  · have hf : rows.any (fun q => decide (q.fingerprint = r.fingerprint)) = false := by
      cases h2 : rows.any (fun q => decide (q.fingerprint = r.fingerprint))
      · rfl
      · exact absurd h2 hany
    rw [if_neg hany, find?_append_new rows r hf]

theorem keys_map_replace (key : String) (r : RelayRow) (hr : r.fingerprint = key)
    (rows : List RelayRow) :
    (rows.map (fun q => if q.fingerprint = key then r else q)).map RelayRow.fingerprint =
      rows.map RelayRow.fingerprint := by
  induction rows with
  | nil => rfl
  | cons q rest ih =>
    by_cases hq : q.fingerprint = key
    · simp only [List.map_cons, if_pos hq, ih]
      rw [show RelayRow.fingerprint r = key from hr, show RelayRow.fingerprint q = key from hq]
    · simp only [List.map_cons, if_neg hq, ih]

theorem nodup_keys_upsert (rows : List RelayRow) (r : RelayRow)
    (h : (rows.map RelayRow.fingerprint).Nodup) :
    ((upsertRelay rows r).map RelayRow.fingerprint).Nodup := by
  unfold upsertRelay
  by_cases hany : rows.any (fun q => decide (q.fingerprint = r.fingerprint)) = true
  · rw [if_pos hany, keys_map_replace r.fingerprint r rfl rows]
    exact h
  · have hall : ∀ q ∈ rows, q.fingerprint ≠ r.fingerprint := by
      intro q hq heq
      exact hany (List.any_eq_true.mpr ⟨q, hq, by simp [heq]⟩)
    rw [if_neg hany, List.map_append]
    rw [List.nodup_append]
    refine ⟨h, by simp, ?_⟩
    intro a ha hb
    simp only [List.map_cons, List.map_nil, List.mem_singleton] at hb
    rcases List.mem_map.mp ha with ⟨q, hq, hqe⟩
    exact hall q hq (by rw [hqe, hb])

/-! ## Claims C3 and C4 -/

/-- Claim C3: for every interface state, setPage succeeds on every page
index inside [0, pageCount) and a subsequent getPage returns that index;
on every index outside that range setPage raises ValueError naming the
index, returning no successor state, so getPage and all other interface
state are left untouched. -/
theorem c3_set_page_get_page (st : Interface) (p : Int) :
    (0 ≤ p → p < st.page_count →
      ∃ st', st.set_page p = Except.ok st' ∧ st'.get_page = p) ∧
    (p < 0 ∨ st.page_count ≤ p →
      st.set_page p = Except.error ("Invalid page number: " ++ toString p)) := by
  constructor
  · intro h0 hlt
    have hcond : ¬ (p < 0 ∨ st.page_count ≤ p) := by omega
    by_cases hp : p ≠ st.page
    · refine ⟨{ st with
          page := p,
          headerPanel := (st.headerPanel.redraw).set_visible true,
          pagePanels := idxMap
            (fun i pnls => pnls.map (fun q => q.set_visible (decide ((i : Int) = p))))
            0 st.pagePanels }, ?_, rfl⟩
      simp only [Interface.set_page]
      rw [if_neg hcond, if_pos hp]
    · push_neg at hp
      refine ⟨st, ?_, ?_⟩
      · simp only [Interface.set_page]
        rw [if_neg hcond, if_neg (by simp [hp])]
      · simp [Interface.get_page, hp]
  · intro h
    simp only [Interface.set_page]
    rw [if_pos h]

theorem c3_witness :
    ∃ st', st3.set_page 1 = Except.ok st' ∧ st'.get_page = 1 :=
  (c3_set_page_get_page st3 1).1 (by decide) (by decide)

/-- Claim C4: recordRelay validates fingerprint, then nickname, then
address (IPv4 or IPv6), then port, in that fixed order; the first
violated check produces a ValueError naming the offending value and
field, before any storage mutation (no successor store is produced);
when every check passes the call upserts the record keyed by the
fingerprint, after which a nickname lookup under that fingerprint
returns the stored (possibly overwritten) name and the store still has
no duplicate fingerprint keys. -/
theorem c4_record_relay (v : Validators) (rows : List RelayRow) (fp addr : String)
    (port : Int) (nick : String) :
    (v.fingerprintOk fp = false →
      record_relay v rows fp addr port nick =
        Except.error ("\x27" ++ fp ++ "\x27 isn\x27t a valid fingerprint")) ∧
    (v.fingerprintOk fp = true → v.nicknameOk nick = false →
      record_relay v rows fp addr port nick =
        Except.error ("\x27" ++ nick ++ "\x27 isn\x27t a valid nickname")) ∧
    (v.fingerprintOk fp = true → v.nicknameOk nick = true →
      v.ipv4Ok addr = false → v.ipv6Ok addr = false →
      record_relay v rows fp addr port nick =
        Except.error ("\x27" ++ addr ++ "\x27 isn\x27t a valid address")) ∧
    (v.fingerprintOk fp = true → v.nicknameOk nick = true →
      (v.ipv4Ok addr = true ∨ v.ipv6Ok addr = true) → v.portOk port = false →
      record_relay v rows fp addr port nick =
        Except.error ("\x27" ++ toString port ++ "\x27 isn\x27t a valid port")) ∧
    (v.fingerprintOk fp = true → v.nicknameOk nick = true →
      (v.ipv4Ok addr = true ∨ v.ipv6Ok addr = true) → v.portOk port = true →
      record_relay v rows fp addr port nick =
        Except.ok (upsertRelay rows ⟨fp, addr, port, nick⟩) ∧
      relay_nickname (upsertRelay rows ⟨fp, addr, port, nick⟩) fp none = some nick ∧
      ((rows.map RelayRow.fingerprint).Nodup →
        ((upsertRelay rows ⟨fp, addr, port, nick⟩).map RelayRow.fingerprint).Nodup)) := by
  refine ⟨?_, ?_, ?_, ?_, ?_⟩
  · intro h1
    simp [record_relay, h1]
  · intro h1 h2
    simp [record_relay, h1, h2]
  · intro h1 h2 h3 h4
    simp [record_relay, h1, h2, h3, h4]
  · intro h1 h2 h3 h4
    rcases h3 with h3 | h3 <;> simp [record_relay, h1, h2, h3, h4]
  · intro h1 h2 h3 h4
    refine ⟨?_, upsert_lookup rows ⟨fp, addr, port, nick⟩,
      nodup_keys_upsert rows ⟨fp, addr, port, nick⟩⟩
    rcases h3 with h3 | h3 <;> simp [record_relay, h1, h2, h3, h4]

theorem c4_witness :
    record_relay vC4 [] fpA "127.0.0.1" 9001 "Unnamed" = Except.ok (upsertRelay [] rowA) ∧
    relay_nickname (upsertRelay [] rowA) fpA none = some "Unnamed" ∧
    ((upsertRelay [] rowA).map RelayRow.fingerprint).Nodup := by
  have h := (c4_record_relay vC4 [] fpA "127.0.0.1" 9001 "Unnamed").2.2.2.2
    (by decide) (by decide) (Or.inl (by decide)) (by decide)
  exact ⟨h.1, h.2.1, h.2.2 (by decide)⟩

/-! ## Helper lemmas: interface state -/

theorem get?_idxMap {α β : Type} (f : Nat → α → β) :
    ∀ (L : List α) (k i : Nat), (idxMap f k L).get? i = (L.get? i).map (f (k + i)) := by
  intro L
  induction L with
  | nil =>
    intro k i
    simp [idxMap]
  | cons a as ih =>
    intro k i
    cases i with
    | zero => simp [idxMap]
    | succ i' =>
      simp only [idxMap, List.get?_cons_succ]
      rw [ih (k + 1) i']
      have he : k + 1 + i' = k + (i' + 1) := by omega
      rw [he]

theorem visible_set_visible (q : PanelS) (v : Bool) : (q.set_visible v).visible = v := rfl

theorem visible_set_paused (q : PanelS) (b : Bool) : (q.set_paused b).visible = q.visible := rfl

theorem visible_redraw (q : PanelS) : q.redraw.visible = q.visible := rfl

theorem visible_startIfDaemon (q : PanelS) : (startIfDaemon q).visible = q.visible := by
  unfold startIfDaemon
  split <;> rfl

theorem length_setP : ∀ (ps : List PanelS) (i : Nat) (b : PanelS),
    (setP ps i b).length = ps.length := by
  intro ps
  induction ps with
  | nil =>
    intro i b
    rfl
  | cons q rest ih =>
    intro i b
    cases i with
    | zero => rfl
    | succ i' => simp [setP, ih]

theorem length_modifyPanelAt (ps : List PanelS) (i : Nat) (f : PanelS → PanelS) :
    (modifyPanelAt ps i f).length = ps.length :=
  length_setP ps i (f (getP ps i))

theorem getP_modifyPanelAt : ∀ (ps : List PanelS) (j i : Nat) (f : PanelS → PanelS),
    getP (modifyPanelAt ps j f) i =
      if i = j ∧ j < ps.length then f (getP ps j) else getP ps i := by
  intro ps
  induction ps with
  | nil =>
    intro j i f
    simp [modifyPanelAt, setP, getP]
  | cons q rest ih =>
    intro j i f
    cases j with
    | zero =>
      cases i with
      | zero => simp [modifyPanelAt, setP, getP]
      | succ i' => simp [modifyPanelAt, setP, getP]
    | succ j' =>
      cases i with
      | zero => simp [modifyPanelAt, setP, getP]
      | succ i' =>
        show getP (modifyPanelAt rest j' f) i' =
          if i' + 1 = j' + 1 ∧ j' + 1 < rest.length + 1 then f (getP rest j') else getP rest i'
        rw [ih j' i' f]
        by_cases hc : i' = j' ∧ j' < rest.length
        · rw [if_pos hc, if_pos ⟨by omega, by omega⟩]
        · rw [if_neg hc, if_neg (fun hc2 => hc ⟨by omega, by omega⟩)]

theorem applyEvents_append : ∀ (a b : List HaltEvent) (ps : List PanelS),
    applyEvents ps (a ++ b) = applyEvents (applyEvents ps a) b := by
  intro a
  induction a with
  | nil =>
    intro b ps
    rfl
  | cons e rest ih =>
    intro b ps
    cases e <;> simp [applyEvents, ih]

theorem length_applyEvents : ∀ (tr : List HaltEvent) (ps : List PanelS),
    (applyEvents ps tr).length = ps.length := by
  intro tr
  induction tr with
  | nil =>
    intro ps
    rfl
  | cons e rest ih =>
    intro ps
    cases e <;> simp [applyEvents, ih, length_modifyPanelAt]

theorem visible_applyEvents : ∀ (tr : List HaltEvent) (ps : List PanelS) (i : Nat),
    (getP (applyEvents ps tr) i).visible = (getP ps i).visible := by
  intro tr
  induction tr with
  | nil =>
    intro ps i
    rfl
  | cons e rest ih =>
    intro ps i
    cases e with
    | stop j =>
      show (getP (applyEvents (modifyPanelAt ps j PanelS.stop) rest) i).visible = _
      rw [ih, getP_modifyPanelAt]
      split_ifs with h
      · rcases h with ⟨h1, _⟩
        subst h1
        rfl
      · rfl
    | join j =>
      show (getP (applyEvents (modifyPanelAt ps j PanelS.join) rest) i).visible = _
      rw [ih, getP_modifyPanelAt]
      split_ifs with h
      · rcases h with ⟨h1, _⟩
        subst h1
        rfl
      · rfl

theorem applyEvents_map_mk (mk : Nat → HaltEvent) (g : PanelS → PanelS)
    (hstep : ∀ (ps : List PanelS) (i : Nat) (tr : List HaltEvent),
      applyEvents ps (mk i :: tr) = applyEvents (modifyPanelAt ps i g) tr) :
    ∀ (ds : List Nat) (ps : List PanelS), ds.Nodup →
      ∀ i, getP (applyEvents ps (ds.map mk)) i =
        if i ∈ ds ∧ i < ps.length then g (getP ps i) else getP ps i := by
  intro ds
  induction ds with
  | nil =>
    intro ps _ i
    simp [applyEvents]
  | cons j rest ih =>
    intro ps hnd i
    have hj : j ∉ rest := (List.nodup_cons.mp hnd).1
    have hrest : rest.Nodup := (List.nodup_cons.mp hnd).2
    rw [List.map_cons, hstep]
    rw [ih (modifyPanelAt ps j g) hrest i, length_modifyPanelAt]
    by_cases hij : i = j
    · subst hij
      rw [if_neg (fun hc => hj hc.1)]
      rw [getP_modifyPanelAt]
      by_cases hlen : i < ps.length
      · rw [if_pos ⟨rfl, hlen⟩, if_pos ⟨List.mem_cons_self i rest, hlen⟩]
      · rw [if_neg (fun hc => hlen hc.2), if_neg (fun hc => hlen hc.2)]
    · have hget : getP (modifyPanelAt ps j g) i = getP ps i := by
        rw [getP_modifyPanelAt, if_neg (fun hc => hij hc.1)]
      rw [hget]
      by_cases hmem : i ∈ rest ∧ i < ps.length
      · rw [if_pos hmem, if_pos ⟨List.mem_cons_of_mem j hmem.1, hmem.2⟩]
      · rw [if_neg hmem, if_neg]
        intro hc
        rcases List.mem_cons.mp hc.1 with h1 | h1
        · exact hij h1
        · exact hmem ⟨h1, hc.2⟩

theorem mem_daemonIdxs (st : Interface) (i : Nat) :
    i ∈ st.daemonIdxs ↔ i < st.panels.length ∧ (getP st.panels i).isDaemon = true := by
  unfold Interface.daemonIdxs
  rw [List.mem_filter, List.mem_range]

theorem nodup_daemonIdxs (st : Interface) : st.daemonIdxs.Nodup :=
  (List.nodup_range _).filter _

theorem map_map_idxMap (g : Nat → List PanelS → List PanelS) (h1 h2 : PanelS → Nat)
    (hg : ∀ i pg, (g i pg).map h2 = pg.map h1) :
    ∀ (k : Nat) (L : List (List PanelS)),
      (idxMap g k L).map (List.map h2) = L.map (List.map h1) := by
  intro k L
  induction L generalizing k with
  | nil => rfl
  | cons a as ih =>
    simp only [idxMap, List.map_cons]
    rw [hg k a, ih (k + 1)]

theorem set_paused_spc (st : Interface) (b : Bool) (hb : b ≠ st.paused) :
    (st.set_paused b).panels.map (fun q => q.setPausedCount) =
      st.panels.map (fun q => q.setPausedCount + 1) := by
  simp only [Interface.set_paused, if_pos hb, Interface.panels, List.map_cons]
  congr 1
  rw [List.map_flatten, List.map_flatten]
  rw [map_map_idxMap _ (fun q => q.setPausedCount + 1) (fun q => q.setPausedCount)]
  intro i pg
  by_cases hpage : (i : Int) = st.page
  · rw [if_pos hpage, List.map_map]
    exact List.map_congr_left (fun q _ => rfl)
  · rw [if_neg hpage, List.map_map]
    exact List.map_congr_left (fun q _ => rfl)

/-! ## Claims C6, C8, C9 -/

/-- Claim C6: every surface's visibility flag equals (the surface is the
header OR the surface belongs to the currently active page). The
invariant is established by the controller's constructor and preserved
by set_page (which resets each flag against the new page), set_paused,
redraw and quit; the state halt returns is the unchanged one, and the
stop/join work of its shutdown thread never touches a visibility flag. -/
theorem c6_visibility_invariant :
    (∀ (cfg : Config) (d : DaemonFlags) (st : Interface),
      Interface.init cfg d = Except.ok st → st.visInv) ∧
    (∀ (st : Interface) (p : Int) (st' : Interface),
      st.set_page p = Except.ok st' → st.visInv → st'.visInv) ∧
    (∀ (st : Interface) (b : Bool), st.visInv → (st.set_paused b).visInv) ∧
    (∀ st : Interface, st.visInv → st.redraw.visInv) ∧
    (∀ st : Interface, st.visInv → st.quit.visInv) ∧
    (∀ st : Interface, (st.halt).1 = st) ∧
    (∀ (ps : List PanelS) (tr : List HaltEvent) (i : Nat),
      (getP (applyEvents ps tr) i).visible = (getP ps i).visible) := by
  refine ⟨?_, ?_, ?_, ?_, ?_, fun st => rfl, fun ps tr i => visible_applyEvents tr ps i⟩
  · intro cfg d st h
    simp only [Interface.init] at h
    split at h
    · simp at h
    · injection h with h2
      subst h2
      constructor
      · simp only [initState]
        rw [visible_startIfDaemon, visible_set_visible]
      · intro i pnls hget q hq
        simp only [initState] at hget ⊢
        rw [get?_idxMap] at hget
        simp only [Nat.zero_add] at hget
        rcases Option.map_eq_some'.mp hget with ⟨pg, hpg, hmap⟩
        rw [← hmap] at hq
        rcases List.mem_map.mp hq with ⟨q0, hq0, hq0e⟩
        rw [← hq0e, visible_startIfDaemon, visible_set_visible]
  · intro st p st' h hInv
    simp only [Interface.set_page] at h
    split at h
    · simp at h
    · split at h
      · injection h with h2
        subst h2
        constructor
        · rw [visible_set_visible]
        · intro i pnls hget q hq
          rw [get?_idxMap] at hget
          simp only [Nat.zero_add] at hget
          rcases Option.map_eq_some'.mp hget with ⟨pg, hpg, hmap⟩
          rw [← hmap] at hq
          rcases List.mem_map.mp hq with ⟨q0, hq0, hq0e⟩
          rw [← hq0e, visible_set_visible]
      · injection h with h2
        subst h2
        exact hInv
  · intro st b hInv
    by_cases hb : b ≠ st.paused
    · simp only [Interface.set_paused, if_pos hb]
      constructor
      · rw [visible_redraw, visible_set_paused]
        exact hInv.1
      · intro i pnls hget q hq
        rw [get?_idxMap] at hget
        simp only [Nat.zero_add] at hget
        rcases Option.map_eq_some'.mp hget with ⟨pg, hpg, hmap⟩
        rw [← hmap] at hq
        show q.visible = decide ((i : Int) = st.page)
        by_cases hpage : (i : Int) = st.page
        · rw [if_pos hpage] at hq
          rcases List.mem_map.mp hq with ⟨q0, hq0, hq0e⟩
          rw [← hq0e, visible_redraw, visible_set_paused]
          exact hInv.2 i pg hpg q0 hq0
        · rw [if_neg hpage] at hq
          rcases List.mem_map.mp hq with ⟨q0, hq0, hq0e⟩
          rw [← hq0e, visible_set_paused]
          exact hInv.2 i pg hpg q0 hq0
    · simp only [Interface.set_paused, if_neg hb]
      exact hInv
  · intro st hInv
    constructor
    · exact hInv.1
    · intro i pnls hget q hq
      simp only [Interface.redraw] at hget
      rw [get?_idxMap] at hget
      simp only [Nat.zero_add] at hget
      rcases Option.map_eq_some'.mp hget with ⟨pg, hpg, hmap⟩
      rw [← hmap] at hq
      show q.visible = decide ((i : Int) = st.page)
      by_cases hpage : (i : Int) = st.page
      · rw [if_pos hpage] at hq
        rcases List.mem_map.mp hq with ⟨q0, hq0, hq0e⟩
        rw [← hq0e, visible_redraw]
        exact hInv.2 i pg hpg q0 hq0
      · rw [if_neg hpage] at hq
        exact hInv.2 i pg hpg q hq
  · intro st hInv
    exact hInv

theorem c6_witness : stC6val.visInv :=
  c6_visibility_invariant.1 cfg1 d1 stC6val (by decide)

/-- Claim C8: setPaused is idempotent on repeated identical state - when
the stored paused flag already equals the argument the call changes
nothing (no propagation, no redraw), a second identical call is always a
no-op, and two consecutive setPaused(true) calls from the unpaused state
propagate set_paused to every surface exactly once. -/
theorem c8_set_paused_idempotent :
    (∀ (st : Interface) (b : Bool), st.paused = b → st.set_paused b = st) ∧
    (∀ (st : Interface) (b : Bool),
      (st.set_paused b).set_paused b = st.set_paused b) ∧
    (∀ st : Interface, st.paused = false →
      ((st.set_paused true).set_paused true).panels.map (fun q => q.setPausedCount) =
        st.panels.map (fun q => q.setPausedCount + 1)) := by
  have hnoop : ∀ (st : Interface) (b : Bool), st.paused = b → st.set_paused b = st := by
    intro st b h
    simp [Interface.set_paused, h]
  have hpaused : ∀ (st : Interface) (b : Bool), (st.set_paused b).paused = b := by
    intro st b
    by_cases hb : b ≠ st.paused
    · simp [Interface.set_paused, if_pos hb]
    · push_neg at hb
      rw [hnoop st b hb.symm]
      exact hb.symm
  refine ⟨hnoop, ?_, ?_⟩
  · intro st b
    exact hnoop _ b (hpaused st b)
  · intro st h
    rw [hnoop _ true (hpaused st true)]
    exact set_paused_spc st true (by simp [h])

theorem c8_witness :
    ((st8.set_paused true).set_paused true).panels.map (fun q => q.setPausedCount) =
      st8.panels.map (fun q => q.setPausedCount + 1) :=
  c8_set_paused_idempotent.2.2 st8 rfl

/-- Claim C9: halt returns its handle with the interface unchanged (it
does not wait for the shutdown work), the handle's work performs stop()
on every daemon panel strictly before any join(), and once the work has
run every daemon panel has had stop() and join() invoked exactly once
while non-daemon panels are untouched. -/
theorem c9_halt (st : Interface) :
    (st.halt).1 = st ∧
    (∀ k₁ k₂ i j, (st.halt).2.get? k₁ = some (HaltEvent.stop i) →
      (st.halt).2.get? k₂ = some (HaltEvent.join j) → k₁ < k₂) ∧
    (∀ i, i < st.panels.length →
      (getP (applyEvents st.panels (st.halt).2) i).stopCount =
        (getP st.panels i).stopCount +
          (if (getP st.panels i).isDaemon then 1 else 0) ∧
      (getP (applyEvents st.panels (st.halt).2) i).joinCount =
        (getP st.panels i).joinCount +
          (if (getP st.panels i).isDaemon then 1 else 0)) := by
  have htr : (st.halt).2 =
      st.daemonIdxs.map HaltEvent.stop ++ st.daemonIdxs.map HaltEvent.join := rfl
  refine ⟨rfl, ?_, ?_⟩
  · intro k₁ k₂ i j h1 h2
    rw [htr] at h1 h2
    have hk1 : k₁ < st.daemonIdxs.length := by
      by_contra hge
      push_neg at hge
      rw [List.get?_append_right (by simpa using hge)] at h1
      rw [List.get?_map] at h1
      cases hd : st.daemonIdxs.get? (k₁ - (st.daemonIdxs.map HaltEvent.stop).length) with
      | none =>
        rw [hd] at h1
        exact absurd h1 (by simp)
      | some m =>
        rw [hd] at h1
        simp at h1
    have hk2 : st.daemonIdxs.length ≤ k₂ := by
      by_contra hlt
      push_neg at hlt
      rw [List.get?_append (by simpa using hlt)] at h2
      rw [List.get?_map] at h2
      cases hd : st.daemonIdxs.get? k₂ with
      | none =>
        rw [hd] at h2
        exact absurd h2 (by simp)
      | some m =>
        rw [hd] at h2
        simp at h2
    omega
  · intro i hi
    have hnd := nodup_daemonIdxs st
    have hstop := applyEvents_map_mk HaltEvent.stop PanelS.stop (fun ps i tr => rfl)
      st.daemonIdxs st.panels hnd
    have hlen1 : (applyEvents st.panels (st.daemonIdxs.map HaltEvent.stop)).length =
        st.panels.length := length_applyEvents _ _
    have hjoin := applyEvents_map_mk HaltEvent.join PanelS.join (fun ps i tr => rfl)
      st.daemonIdxs (applyEvents st.panels (st.daemonIdxs.map HaltEvent.stop)) hnd
    rw [htr, applyEvents_append, hjoin i]
    by_cases hd : (getP st.panels i).isDaemon = true
    · have hmem : i ∈ st.daemonIdxs := (mem_daemonIdxs st i).mpr ⟨hi, hd⟩
      rw [if_pos ⟨hmem, by rw [hlen1]; exact hi⟩]
      rw [hstop i, if_pos ⟨hmem, hi⟩]
      simp [PanelS.stop, PanelS.join, hd]
    · have hmem : i ∉ st.daemonIdxs := fun hm => hd ((mem_daemonIdxs st i).mp hm).2
      rw [if_neg (fun hc => hmem hc.1)]
      rw [hstop i, if_neg (fun hc => hmem hc.1)]
      have hd0 : (getP st.panels i).isDaemon = false := by
        cases hdd : (getP st.panels i).isDaemon
        · rfl
        · exact absurd hdd hd
      simp [hd0]

theorem c9_witness :
    (getP (applyEvents st9.panels (st9.halt).2) 0).stopCount =
      (getP st9.panels 0).stopCount + (if (getP st9.panels 0).isDaemon then 1 else 0) ∧
    (getP (applyEvents st9.panels (st9.halt).2) 0).joinCount =
      (getP st9.panels 0).joinCount + (if (getP st9.panels 0).isDaemon then 1 else 0) :=
  (c9_halt st9).2.2 0 (by decide)

end Nyx
